import Mathlib

/-!
# Verification of the image-enhancement workflow

A shallow embedding of the asynchronous image-enhancement workflow of the
BuyNoida/Casabricks backend: the enhancement state machine
(`app/services/image_service.py`), the repository operations it relies on
(`app/repositories/image_repo.py`, `app/repositories/base.py`), and the
stuck-job sweep (`app/tasks/monitoring_tasks.py`).

Modelling conventions:
* UUIDs are modelled as `Nat`; timestamps (`datetime.utcnow()`) as `Int`
  epoch seconds, supplied explicitly as a `now` parameter.
* The database session is a `List ImageRecord`; `BaseRepository.get_by_id`
  is `List.find?` on the id and `BaseRepository.update` maps over the list.
* External effects (the AI client call, blob download/upload, HMAC
  computation, JSON serialisation, UUID parsing) are passed in as explicit
  function/result parameters, so each theorem quantifies over their
  behaviour.
* Python exceptions become an explicit error component: each service call
  returns its result (or error) together with the resulting store; on every
  error path of the source no mutation precedes the raise, which the
  embedding mirrors by returning the input store unchanged.
* Python truthiness of an `Optional[str]` (`if enhanced_url:`,
  `x or default`) is modelled by `optStrTruthy` / `pyOrStr`.
-/

namespace BuyNoida

/-- `EnhancementStatus` from `app/models/image.py`. -/
inductive EnhancementStatus
  | pending
  | processing
  | completed
  | failed
  | timeout
deriving DecidableEq, Repr

/-- The `.value` of a status member (the Python enum is a `str` enum). -/
def statusValue : EnhancementStatus → String
  | .pending => "pending"
  | .processing => "processing"
  | .completed => "completed"
  | .failed => "failed"
  | .timeout => "timeout"

/-- The enhancement-relevant columns of `PropertyImage` (`app/models/image.py`). -/
structure ImageRecord where
  id : Nat
  propertyId : Nat
  originalUrl : String
  enhancedUrl : Option String
  enhancementStatus : EnhancementStatus
  aiJobId : Option String
  enhancementRequestedAt : Option Int
  enhancementCompletedAt : Option Int
  enhancementErrorMessage : Option String
deriving DecidableEq, Repr

/-- The image table of the database session. -/
abbrev Store := List ImageRecord

/-- `BaseRepository.get_by_id`: `SELECT ... WHERE id = :id`, one-or-none. -/
def get_by_id (store : Store) (id : Nat) : Option ImageRecord :=
  store.find? (fun r => r.id == id)

/-- `UPDATE ... WHERE id = :id` applying `f` to every row whose id matches
(used by `BaseRepository.update` and by the in-place ORM mutations). -/
def updateRecord (store : Store) (id : Nat) (f : ImageRecord → ImageRecord) : Store :=
  store.map (fun r => if r.id == id then f r else r)

/-- Python truthiness of an `Optional[str]`: `None` and `""` are falsy. -/
def optStrTruthy : Option String → Bool
  | none => false
  | some s => !(s == "")

/-- Python `x or default` for an `Optional[str]`. -/
def pyOrStr (o : Option String) (d : String) : String :=
  match o with
  | some s => if s == "" then d else s
  | none => d

/-- The per-row mutation performed by
`ImageRepository.update_enhancement_status` (`image_repo.py` lines 90-102):
set the status, set `enhanced_url` / `enhancement_error_message` only when
the argument is truthy, and stamp `enhancement_completed_at` when the new
status is `COMPLETED` or `FAILED`. -/
def applyStatusUpdate (now : Int) (status : EnhancementStatus)
    (enhanced_url : Option String) (error_message : Option String)
    (r : ImageRecord) : ImageRecord :=
  let r1 := { r with enhancementStatus := status }
  let r2 := if optStrTruthy enhanced_url then { r1 with enhancedUrl := enhanced_url } else r1
  let r3 := if optStrTruthy error_message then
      { r2 with enhancementErrorMessage := error_message } else r2
  if status = .completed ∨ status = .failed then
    { r3 with enhancementCompletedAt := some now }
  else r3

/-- `ImageRepository.update_enhancement_status`: fetch by id, mutate, flush. -/
def update_enhancement_status (now : Int) (store : Store) (image_id : Nat)
    (status : EnhancementStatus) (enhanced_url : Option String)
    (error_message : Option String) : Store :=
  match get_by_id store image_id with
  | none => store
  | some _ => updateRecord store image_id (applyStatusUpdate now status enhanced_url error_message)

/-- `ImageRepository.mark_as_timeout`: for each id, fetch the row and, if it
exists, unconditionally set `enhancement_status = TIMEOUT` and count it.
Note the source performs no re-check that the row is still `PROCESSING`. -/
def mark_as_timeout (store : Store) : List Nat → Store × Nat
  | [] => (store, 0)
  | image_id :: rest =>
    match get_by_id store image_id with
    | none => mark_as_timeout store rest
    | some _ =>
      let res := mark_as_timeout
        (updateRecord store image_id (fun r => { r with enhancementStatus := .timeout })) rest
      (res.1, res.2 + 1)

/-- `ImageRepository.get_stuck_images`: rows with
`enhancement_status == PROCESSING` and `enhancement_requested_at < now - hours`.
A SQL comparison against NULL is false, hence the `none => false` arm. -/
def get_stuck_images (now : Int) (hours : Int) (store : Store) : List ImageRecord :=
  let cutoff := now - hours * 3600
  store.filter (fun r =>
    r.enhancementStatus == .processing &&
    (match r.enhancementRequestedAt with
     | some t => decide (t < cutoff)
     | none => false))

/-- `check_stuck_images` (`app/tasks/monitoring_tasks.py`): scan for stuck
rows (threshold 48 hours), mark them all as timeout, return the count
(`0` when the scan finds nothing). This is the sequential reading in which
nothing interleaves between the scan and the apply. -/
def check_stuck_images (now : Int) (store : Store) : Store × Nat :=
  let stuck := get_stuck_images now 48 store
  if stuck.isEmpty then (store, 0)
  else mark_as_timeout store (stuck.map (fun r => r.id))

/-- `check_stuck_images` with the interleaving point made explicit: the scan
(`get_stuck_images`) and the per-record apply (`mark_as_timeout`) are two
separate awaited calls against a shared database, so a concurrent actor
(`interfere`, e.g. a webhook delivery) may change the store in between. -/
def check_stuck_images_interleaved (now : Int) (store : Store)
    (interfere : Store → Store) : Store × Nat :=
  let stuck := get_stuck_images now 48 store
  if stuck.isEmpty then (interfere store, 0)
  else mark_as_timeout (interfere store) (stuck.map (fun r => r.id))

/-- The service-level errors raised by the workflow (`app/core/exceptions.py`):
`ImageNotFoundException`, `ValidationException`, `ImageEnhancementException`. -/
inductive ServiceError
  | imageNotFound (id : String)
  | validation (msg : String)
  | imageEnhancement (msg : String)
deriving DecidableEq, Repr

/-- The dict returned by `ImageService.request_enhancement` on success. -/
structure EnhanceResponse where
  id : Nat
  ai_job_id : Option String
  status : String
  message : String
deriving DecidableEq, Repr

/-- `ImageService.request_enhancement` (`image_service.py` lines 125-176).
`aiResult` is the outcome of `AIServiceClient.request_enhancement`
(`ai_client.py`): `.error e` models a raised `ImageEnhancementException`
(network error or non-2xx), `.ok j` models a parsed JSON response whose
optional `ai_job_id` key is `j`. Each error path of the source raises before
any mutation, so the input store is returned unchanged there. -/
def request_enhancement (now : Int) (store : Store) (image_id : Nat)
    (aiResult : Except String (Option String)) :
    Except ServiceError EnhanceResponse × Store :=
  match get_by_id store image_id with
  | none => (.error (.imageNotFound (toString image_id)), store)
  | some image =>
    if image.enhancementStatus = .pending ∨ image.enhancementStatus = .failed then
      match aiResult with
      | .error e => (.error (.imageEnhancement e), store)
      | .ok aiJobId =>
        let store1 := updateRecord store image_id (fun r =>
          { r with
            enhancementStatus := .processing,
            aiJobId := some (aiJobId.getD (toString image.id)),
            enhancementRequestedAt := some now })
        (.ok { id := image.id, ai_job_id := aiJobId, status := "processing",
               message := "Enhancement request submitted successfully" }, store1)
    else
      (.error (.validation
        ("Image cannot be enhanced. Current status: " ++ statusValue image.enhancementStatus)),
       store)

/-- `WebhookAIEnhancementRequest` (`app/schemas/image.py`). -/
structure WebhookAIEnhancementRequest where
  job_id : String
  status : String
  enhanced_image_url : Option String
  processing_time_seconds : Option Int
  error_message : Option String
deriving DecidableEq, Repr

/-- The ambient configuration and pure external functions used by
`ImageService.process_webhook`: the webhook secret, the HMAC-SHA256 hex
digest (`hmac.new(...).hexdigest()`), the payload serialisation
(`model_dump_json()`), UUID parsing (`UUID(...)`, `none` models a raised
`ValueError`), and the current time. -/
structure Env where
  webhookSecret : String
  hmacSha256Hex : String → String → String
  serialize : WebhookAIEnhancementRequest → String
  parseUUID : String → Option Nat
  now : Int

/-- `ImageService._verify_signature`: recompute the keyed digest over the
exact payload text and compare (the source uses `hmac.compare_digest`, a
constant-time equality; extensionally it is equality). -/
def verify_signature (env : Env) (payload signature : String) : Bool :=
  env.hmacSha256Hex env.webhookSecret payload == signature

/-- `ImageService._process_success` (`image_service.py` lines 217-263):
download the enhanced blob, re-upload it under our namespace, then mark the
record `COMPLETED` with the new url; if either step fails, mark it `FAILED`
with a diagnostic message instead. `download_file` and `upload_file` model
`SupabaseStorage.download_file` / `upload_file`, with `.error` a raised
exception whose text is the payload. -/
def process_success (env : Env) (store : Store) (image : ImageRecord)
    (wd : WebhookAIEnhancementRequest)
    (download_file : String → Except String String)
    (upload_file : String → String → String → Except String String) : Store :=
  match download_file (wd.enhanced_image_url.getD "") with
  | .error e =>
    update_enhancement_status env.now store image.id .failed none
      (some ("Failed to process enhanced image: " ++ e))
  | .ok content =>
    match upload_file content ("enhanced_" ++ toString image.id ++ ".jpg") "image/jpeg" with
    | .error e =>
      update_enhancement_status env.now store image.id .failed none
        (some ("Failed to process enhanced image: " ++ e))
    | .ok enhanced_url =>
      update_enhancement_status env.now store image.id .completed (some enhanced_url) none

/-- `ImageService._process_failure`: mark the record `FAILED`, storing the
provider-supplied message or a generic one when it is absent/empty. -/
def process_failure (env : Env) (store : Store) (image : ImageRecord)
    (wd : WebhookAIEnhancementRequest) : Store :=
  update_enhancement_status env.now store image.id .failed none
    (some (pyOrStr wd.error_message "Enhancement failed"))

/-- `ImageService.process_webhook` (`image_service.py` lines 178-215):
verify the signature (raising `ValidationException` on mismatch, before any
record is read), parse `job_id` as the image UUID (returning `false` on
parse failure), fetch the record (returning `false` when absent), skip
idempotently when the status is already `COMPLETED` or `FAILED`, and
otherwise dispatch on the payload status. -/
def process_webhook (env : Env) (store : Store)
    (wd : WebhookAIEnhancementRequest) (signature : String)
    (download_file : String → Except String String)
    (upload_file : String → String → String → Except String String) :
    Except ServiceError Bool × Store :=
  if !(verify_signature env (env.serialize wd) signature) then
    (.error (.validation "Invalid webhook signature"), store)
  else
    match env.parseUUID wd.job_id with
    | none => (.ok false, store)
    | some image_id =>
      match get_by_id store image_id with
      | none => (.ok false, store)
      | some image =>
        if image.enhancementStatus = .completed ∨ image.enhancementStatus = .failed then
          (.ok true, store)
        else
          let store1 :=
            if wd.status == "success" && optStrTruthy wd.enhanced_image_url then
              process_success env store image wd download_file upload_file
            else if wd.status == "failed" then
              process_failure env store image wd
            else store
          (.ok true, store1)

/-- `ImageService.upload_image` (`image_service.py` lines 60-103), restricted
to the record it creates: a fresh row in `PENDING` with only `id`,
`property_id` and `original_url` populated. -/
def upload_image (store : Store) (id propertyId : Nat) (original_url : String) : Store :=
  store ++ [{ id := id, propertyId := propertyId, originalUrl := original_url,
              enhancedUrl := none, enhancementStatus := .pending, aiJobId := none,
              enhancementRequestedAt := none, enhancementCompletedAt := none,
              enhancementErrorMessage := none }]

/-- The §3 record invariants: `enhancedUrl` is non-null iff the status is
`completed`, and `completedAt` is non-null iff the status is `completed` or
`failed`. -/
def recordInv (r : ImageRecord) : Bool :=
  (r.enhancedUrl.isSome == decide (r.enhancementStatus = .completed)) &&
  (r.enhancementCompletedAt.isSome ==
    decide (r.enhancementStatus = .completed ∨ r.enhancementStatus = .failed))

/-- Every row of the store satisfies the §3 record invariants. -/
def StoreInv (store : Store) : Prop :=
  ∀ r ∈ store, recordInv r = true

instance (store : Store) : Decidable (StoreInv store) :=
  List.decidableBAll (fun r => recordInv r = true) store

/-! ## Concrete fixtures used by witnesses and counterexamples -/

/-- A concrete environment: a toy (but injective-enough) keyed digest, a
concrete payload serialisation, and a finite id parser standing in for UUID
parsing. -/
def envTest : Env :=
  { webhookSecret := "sek"
  , hmacSha256Hex := fun key msg => "mac:" ++ key ++ ":" ++ msg
  , serialize := fun wd =>
      wd.job_id ++ "|" ++ wd.status ++ "|" ++ (wd.enhanced_image_url.getD "")
  , parseUUID := fun s => if s == "1" then some 1 else if s == "2" then some 2 else none
  , now := 400000 }

/-- The signature a well-behaved provider would attach to `wd`. -/
def sigOf (env : Env) (wd : WebhookAIEnhancementRequest) : String :=
  env.hmacSha256Hex env.webhookSecret (env.serialize wd)

def rPending : ImageRecord :=
  { id := 1, propertyId := 10, originalUrl := "http://o/1.jpg", enhancedUrl := none,
    enhancementStatus := .pending, aiJobId := none, enhancementRequestedAt := none,
    enhancementCompletedAt := none, enhancementErrorMessage := none }

def rProcessing : ImageRecord :=
  { id := 1, propertyId := 10, originalUrl := "http://o/1.jpg", enhancedUrl := none,
    enhancementStatus := .processing, aiJobId := some "1",
    enhancementRequestedAt := some 100,
    enhancementCompletedAt := none, enhancementErrorMessage := none }

def rCompleted : ImageRecord :=
  { id := 1, propertyId := 10, originalUrl := "http://o/1.jpg",
    enhancedUrl := some "http://ours/1.jpg",
    enhancementStatus := .completed, aiJobId := some "1",
    enhancementRequestedAt := some 100,
    enhancementCompletedAt := some 200, enhancementErrorMessage := none }

def rFailed : ImageRecord :=
  { id := 1, propertyId := 10, originalUrl := "http://o/1.jpg", enhancedUrl := none,
    enhancementStatus := .failed, aiJobId := some "1",
    enhancementRequestedAt := some 100,
    enhancementCompletedAt := some 200, enhancementErrorMessage := some "boom" }

def rTimeout : ImageRecord :=
  { id := 1, propertyId := 10, originalUrl := "http://o/1.jpg", enhancedUrl := none,
    enhancementStatus := .timeout, aiJobId := some "1",
    enhancementRequestedAt := some 100,
    enhancementCompletedAt := none, enhancementErrorMessage := none }

/-- A record stuck in `processing` since epoch time 0 (far older than the
48-hour threshold when `now = 400000`). -/
def rStuck : ImageRecord :=
  { id := 1, propertyId := 10, originalUrl := "http://o/1.jpg", enhancedUrl := none,
    enhancementStatus := .processing, aiJobId := some "1",
    enhancementRequestedAt := some 0,
    enhancementCompletedAt := none, enhancementErrorMessage := none }

/-- A second record, recently in `processing` (10 hours before `now = 400000`). -/
def rRecent : ImageRecord :=
  { id := 2, propertyId := 10, originalUrl := "http://o/2.jpg", enhancedUrl := none,
    enhancementStatus := .processing, aiJobId := some "2",
    enhancementRequestedAt := some 364000,
    enhancementCompletedAt := none, enhancementErrorMessage := none }

def wdSuccess : WebhookAIEnhancementRequest :=
  { job_id := "1", status := "success", enhanced_image_url := some "http://prov/e.jpg",
    processing_time_seconds := some 12, error_message := none }

def wdFailed : WebhookAIEnhancementRequest :=
  { job_id := "1", status := "failed", enhanced_image_url := none,
    processing_time_seconds := none, error_message := some "provider exploded" }

def wdBadJob : WebhookAIEnhancementRequest :=
  { job_id := "not-a-uuid", status := "success",
    enhanced_image_url := some "http://prov/e.jpg",
    processing_time_seconds := none, error_message := none }

def wdNoUrl : WebhookAIEnhancementRequest :=
  { job_id := "1", status := "success", enhanced_image_url := none,
    processing_time_seconds := none, error_message := none }

def wdOdd : WebhookAIEnhancementRequest :=
  { job_id := "1", status := "in_progress", enhanced_image_url := none,
    processing_time_seconds := none, error_message := none }

def dlOk : String → Except String String := fun url => .ok ("content:" ++ url)

def dlErr : String → Except String String := fun _ => .error "download timed out"

def ulOk : String → String → String → Except String String :=
  fun _ name _ => .ok ("http://ours/" ++ name)

def ulErr : String → String → String → Except String String :=
  fun _ _ _ => .error "upload refused"

/-! ## Repository lemmas -/

theorem get_by_id_mem {store : Store} {id : Nat} {r : ImageRecord}
    (h : get_by_id store id = some r) : r ∈ store ∧ r.id = id := by
  unfold get_by_id at h
  refine ⟨List.mem_of_find?_eq_some h, ?_⟩
  have := List.find?_some h
  simpa using this

theorem get_by_id_isSome_of_mem {store : Store} {r : ImageRecord} (h : r ∈ store) :
    (get_by_id store r.id).isSome = true := by
  unfold get_by_id
  rw [List.find?_isSome]
  exact ⟨r, h, by simp⟩

theorem get_by_id_updateRecord_self (store : Store) (id : Nat)
    (f : ImageRecord → ImageRecord) (hf : ∀ r, (f r).id = r.id) :
    get_by_id (updateRecord store id f) id = (get_by_id store id).map f := by
  induction store with
  | nil => rfl
  | cons r rest ih =>
    unfold get_by_id updateRecord at *
    by_cases h : r.id = id
    · rw [List.map_cons, if_pos (by simpa using h)]
      rw [List.find?_cons_of_pos _ (by simp [hf r, h]),
          List.find?_cons_of_pos _ (by simp [h])]
      rfl
    · rw [List.map_cons, if_neg (by simpa using h)]
      rw [List.find?_cons_of_neg _ (by simp [h]),
          List.find?_cons_of_neg _ (by simp [h])]
      exact ih

theorem get_by_id_updateRecord_other (store : Store) (id id' : Nat)
    (f : ImageRecord → ImageRecord) (hf : ∀ r, (f r).id = r.id) (h : id' ≠ id) :
    get_by_id (updateRecord store id f) id' = get_by_id store id' := by
  induction store with
  | nil => rfl
  | cons r rest ih =>
    unfold get_by_id updateRecord at *
    by_cases hr : r.id = id
    · rw [List.map_cons, if_pos (by simpa using hr)]
      rw [List.find?_cons_of_neg _ (by simp [hf r, hr]; exact fun e => h e.symm),
          List.find?_cons_of_neg _ (by simp [hr]; exact fun e => h e.symm)]
      exact ih
    · rw [List.map_cons, if_neg (by simpa using hr)]
      by_cases hr' : r.id = id'
      · rw [List.find?_cons_of_pos _ (by simp [hr']),
            List.find?_cons_of_pos _ (by simp [hr'])]
      · rw [List.find?_cons_of_neg _ (by simp [hr']),
            List.find?_cons_of_neg _ (by simp [hr'])]
        exact ih

theorem get_by_id_updateRecord_isSome (store : Store) (id id' : Nat)
    (f : ImageRecord → ImageRecord) (hf : ∀ r, (f r).id = r.id) :
    (get_by_id (updateRecord store id f) id').isSome = (get_by_id store id').isSome := by
  by_cases h : id' = id
  · subst h
    rw [get_by_id_updateRecord_self store id' f hf]
    cases get_by_id store id' <;> rfl
  · rw [get_by_id_updateRecord_other store id id' f hf h]

theorem mem_updateRecord {store : Store} {id : Nat} {f : ImageRecord → ImageRecord}
    {x : ImageRecord} :
    x ∈ updateRecord store id f ↔ ∃ r ∈ store, x = if r.id = id then f r else r := by
  unfold updateRecord
  rw [List.mem_map]
  constructor
  · rintro ⟨r, hr, hx⟩
    exact ⟨r, hr, by rw [← hx]; by_cases h : r.id = id <;> simp [h]⟩
  · rintro ⟨r, hr, hx⟩
    exact ⟨r, hr, by rw [hx]; by_cases h : r.id = id <;> simp [h]⟩

theorem get_by_id_unique {store : Store}
    (hnd : (store.map (fun r => r.id)).Nodup)
    {id : Nat} {r : ImageRecord} (hget : get_by_id store id = some r)
    {x : ImageRecord} (hx : x ∈ store) (hid : x.id = id) : x = r := by
  induction store with
  | nil => cases hx
  | cons y rest ih =>
    rw [List.map_cons, List.nodup_cons] at hnd
    unfold get_by_id at hget
    by_cases hy : y.id = id
    · rw [List.find?_cons_of_pos _ (by simp [hy])] at hget
      cases hget
      rcases List.mem_cons.mp hx with h | h
      · exact h
      · exact absurd (List.mem_map.mpr ⟨x, h, by rw [hid, ← hy]⟩) hnd.1
    · rw [List.find?_cons_of_neg _ (by simp [hy])] at hget
      rcases List.mem_cons.mp hx with h | h
      · exact absurd (h ▸ hid) hy
      · exact ih hnd.2 hget h

/-! ## Field-level description of `applyStatusUpdate` -/

theorem applyStatusUpdate_id (now : Int) (st : EnhancementStatus)
    (eu em : Option String) (r : ImageRecord) :
    (applyStatusUpdate now st eu em r).id = r.id := by
  unfold applyStatusUpdate
  dsimp only
  split <;> split <;> split <;> rfl

theorem applyStatusUpdate_status (now : Int) (st : EnhancementStatus)
    (eu em : Option String) (r : ImageRecord) :
    (applyStatusUpdate now st eu em r).enhancementStatus = st := by
  unfold applyStatusUpdate
  dsimp only
  split <;> split <;> split <;> rfl

theorem applyStatusUpdate_enhancedUrl (now : Int) (st : EnhancementStatus)
    (eu em : Option String) (r : ImageRecord) :
    (applyStatusUpdate now st eu em r).enhancedUrl =
      if optStrTruthy eu then eu else r.enhancedUrl := by
  unfold applyStatusUpdate
  dsimp only
  split <;> split <;> split <;> rfl

theorem applyStatusUpdate_errorMessage (now : Int) (st : EnhancementStatus)
    (eu em : Option String) (r : ImageRecord) :
    (applyStatusUpdate now st eu em r).enhancementErrorMessage =
      if optStrTruthy em then em else r.enhancementErrorMessage := by
  unfold applyStatusUpdate
  dsimp only
  split <;> split <;> split <;> rfl

theorem applyStatusUpdate_completedAt (now : Int) (st : EnhancementStatus)
    (eu em : Option String) (r : ImageRecord) :
    (applyStatusUpdate now st eu em r).enhancementCompletedAt =
      if st = .completed ∨ st = .failed then some now
      else r.enhancementCompletedAt := by
  unfold applyStatusUpdate
  dsimp only
  split <;> split <;> split <;> rfl

theorem applyStatusUpdate_requestedAt (now : Int) (st : EnhancementStatus)
    (eu em : Option String) (r : ImageRecord) :
    (applyStatusUpdate now st eu em r).enhancementRequestedAt =
      r.enhancementRequestedAt := by
  unfold applyStatusUpdate
  dsimp only
  split <;> split <;> split <;> rfl

/-! ## `update_enhancement_status` lemmas -/

theorem get_by_id_update_enhancement_status_self (now : Int) (store : Store)
    (image_id : Nat) (st : EnhancementStatus) (eu em : Option String) :
    get_by_id (update_enhancement_status now store image_id st eu em) image_id =
      (get_by_id store image_id).map (applyStatusUpdate now st eu em) := by
  unfold update_enhancement_status
  cases h : get_by_id store image_id with
  | none => simp [h]
  | some r =>
    rw [get_by_id_updateRecord_self store image_id _
      (fun r => applyStatusUpdate_id now st eu em r), h]

theorem get_by_id_update_enhancement_status_other (now : Int) (store : Store)
    (image_id id' : Nat) (st : EnhancementStatus) (eu em : Option String)
    (h : id' ≠ image_id) :
    get_by_id (update_enhancement_status now store image_id st eu em) id' =
      get_by_id store id' := by
  unfold update_enhancement_status
  cases hg : get_by_id store image_id with
  | none => rfl
  | some r =>
    exact get_by_id_updateRecord_other store image_id id' _
      (fun r => applyStatusUpdate_id now st eu em r) h

/-! ## `mark_as_timeout` lemmas -/

theorem setTimeout_idem (r : ImageRecord) :
    ({ { r with enhancementStatus := .timeout } with
        enhancementStatus := EnhancementStatus.timeout } : ImageRecord) =
      { r with enhancementStatus := .timeout } := rfl

theorem get_by_id_mark_as_timeout (store : Store) (ids : List Nat) (id : Nat) :
    get_by_id (mark_as_timeout store ids).1 id =
      if id ∈ ids then
        (get_by_id store id).map (fun r => { r with enhancementStatus := .timeout })
      else get_by_id store id := by
  induction ids generalizing store with
  | nil => simp [mark_as_timeout]
  | cons i rest ih =>
    unfold mark_as_timeout
    cases hg : get_by_id store i with
    | none =>
      rw [ih]
      by_cases hmem : id ∈ rest
      · rw [if_pos hmem, if_pos (List.mem_cons.mpr (Or.inr hmem))]
      · rw [if_neg hmem]
        by_cases hid : id = i
        · subst hid
          rw [if_pos (List.mem_cons.mpr (Or.inl rfl)), hg]
          rfl
        · rw [if_neg (by simp [hid, hmem])]
    | some r =>
      dsimp only
      rw [ih]
      by_cases hmem : id ∈ rest
      · rw [if_pos hmem, if_pos (List.mem_cons.mpr (Or.inr hmem))]
        by_cases hid : id = i
        · subst hid
          rw [get_by_id_updateRecord_self store id
            (fun r => { r with enhancementStatus := .timeout }) (fun r => rfl)]
          cases get_by_id store id <;> rfl
        · rw [get_by_id_updateRecord_other store i id
            (fun r => { r with enhancementStatus := .timeout }) (fun r => rfl) hid]
      · rw [if_neg hmem]
        by_cases hid : id = i
        · subst hid
          rw [if_pos (List.mem_cons.mpr (Or.inl rfl))]
          exact get_by_id_updateRecord_self store id
            (fun r => { r with enhancementStatus := .timeout }) (fun r => rfl)
        · rw [if_neg (by simp [hid, hmem])]
          exact get_by_id_updateRecord_other store i id
            (fun r => { r with enhancementStatus := .timeout }) (fun r => rfl) hid

theorem mark_as_timeout_count (store : Store) (ids : List Nat)
    (h : ∀ i ∈ ids, (get_by_id store i).isSome = true) :
    (mark_as_timeout store ids).2 = ids.length := by
  induction ids generalizing store with
  | nil => rfl
  | cons i rest ih =>
    unfold mark_as_timeout
    cases hg : get_by_id store i with
    | none =>
      have := h i (List.mem_cons.mpr (Or.inl rfl))
      rw [hg] at this
      cases this
    | some r =>
      dsimp only
      rw [List.length_cons, ih]
      intro j hj
      rw [get_by_id_updateRecord_isSome store i j
        (fun r => { r with enhancementStatus := .timeout }) (fun r => rfl)]
      exact h j (List.mem_cons.mpr (Or.inr hj))

/-! ## `process_webhook` control-flow lemmas -/

theorem process_webhook_terminal_skip (env : Env) (store : Store)
    (wd : WebhookAIEnhancementRequest) (sig : String)
    (dl : String → Except String String)
    (ul : String → String → String → Except String String)
    (image_id : Nat) (image : ImageRecord)
    (hsig : verify_signature env (env.serialize wd) sig = true)
    (hparse : env.parseUUID wd.job_id = some image_id)
    (hget : get_by_id store image_id = some image)
    (hterm : image.enhancementStatus = .completed ∨ image.enhancementStatus = .failed) :
    process_webhook env store wd sig dl ul = (.ok true, store) := by
  unfold process_webhook
  simp only [hsig, hparse, hget]
  simp [hterm]

theorem process_webhook_eq_dispatch (env : Env) (store : Store)
    (wd : WebhookAIEnhancementRequest) (sig : String)
    (dl : String → Except String String)
    (ul : String → String → String → Except String String)
    (image_id : Nat) (image : ImageRecord)
    (hsig : verify_signature env (env.serialize wd) sig = true)
    (hparse : env.parseUUID wd.job_id = some image_id)
    (hget : get_by_id store image_id = some image)
    (hterm : ¬(image.enhancementStatus = .completed ∨ image.enhancementStatus = .failed)) :
    process_webhook env store wd sig dl ul =
      (.ok true,
        if wd.status == "success" && optStrTruthy wd.enhanced_image_url then
          process_success env store image wd dl ul
        else if wd.status == "failed" then
          process_failure env store image wd
        else store) := by
  unfold process_webhook
  simp only [hsig, hparse, hget]
  simp [hterm]

theorem process_success_cases (env : Env) (store : Store) (image : ImageRecord)
    (wd : WebhookAIEnhancementRequest)
    (dl : String → Except String String)
    (ul : String → String → String → Except String String) :
    (∃ e, process_success env store image wd dl ul =
        update_enhancement_status env.now store image.id .failed none
          (some ("Failed to process enhanced image: " ++ e))) ∨
    (∃ content u,
        ul content ("enhanced_" ++ toString image.id ++ ".jpg") "image/jpeg" = .ok u ∧
        process_success env store image wd dl ul =
          update_enhancement_status env.now store image.id .completed (some u) none) := by
  unfold process_success
  cases dl (wd.enhanced_image_url.getD "") with
  | error e => exact Or.inl ⟨e, rfl⟩
  | ok content =>
    dsimp only
    cases hu : ul content ("enhanced_" ++ toString image.id ++ ".jpg") "image/jpeg" with
    | error e => exact Or.inl ⟨e, rfl⟩
    | ok u => exact Or.inr ⟨content, u, hu, rfl⟩

/-! ## Claim theorems -/

/-- C4: for every webhook payload and signature, `process_webhook` rejects
with the invalid-signature `ValidationException` whenever the provided
signature differs from HMAC-SHA256(secret, exact payload bytes), and it does
so uniformly in the store — for every store the result is the same error
with the store returned unchanged, so no record is read or written. -/
theorem C4_invalid_signature_rejected_before_any_lookup (env : Env) (store : Store)
    (wd : WebhookAIEnhancementRequest) (sig : String)
    (dl : String → Except String String)
    (ul : String → String → String → Except String String)
    (h : sig ≠ env.hmacSha256Hex env.webhookSecret (env.serialize wd)) :
    process_webhook env store wd sig dl ul =
      (.error (.validation "Invalid webhook signature"), store) := by
  have hv : verify_signature env (env.serialize wd) sig = false := by
    unfold verify_signature
    rw [beq_eq_false_iff_ne]
    exact fun e => h e.symm
  unfold process_webhook
  rw [hv]
  rfl

/-- C4 witness: a syntactically well-formed success payload naming the real
record `1`, delivered with a wrong signature, is rejected with the
invalid-signature error and the store is untouched. -/
theorem C4_invalid_signature_witness :
    process_webhook envTest [rProcessing] wdSuccess "deadbeef" dlOk ulOk =
      (.error (.validation "Invalid webhook signature"), [rProcessing]) :=
  C4_invalid_signature_rejected_before_any_lookup envTest [rProcessing] wdSuccess
    "deadbeef" dlOk ulOk (by decide)

/-- C9: for every verified payload whose `job_id` does not parse as an image
identifier, `process_webhook` returns `false` without raising, and the
result is the same for every store with the store returned unchanged, so no
record is read or written. -/
theorem C9_malformed_job_id_acknowledged (env : Env) (store : Store)
    (wd : WebhookAIEnhancementRequest) (sig : String)
    (dl : String → Except String String)
    (ul : String → String → String → Except String String)
    (hsig : verify_signature env (env.serialize wd) sig = true)
    (hparse : env.parseUUID wd.job_id = none) :
    process_webhook env store wd sig dl ul = (.ok false, store) := by
  unfold process_webhook
  simp only [hsig, hparse]
  rfl

/-- C9 witness: a correctly signed payload whose `job_id` is not an
identifier is acknowledged with `false` and mutates nothing. -/
theorem C9_malformed_job_id_witness :
    process_webhook envTest [rProcessing] wdBadJob (sigOf envTest wdBadJob) dlOk ulOk =
      (.ok false, [rProcessing]) :=
  C9_malformed_job_id_acknowledged envTest [rProcessing] wdBadJob
    (sigOf envTest wdBadJob) dlOk ulOk (by decide) (by decide)

/-- C10: for a record in `processing`, a verified payload whose status is
`"success"` but whose enhanced-image URL is absent or empty, or whose status
is any string other than `"success"` or `"failed"`, is acknowledged with
`true` while the store is returned unchanged — the record silently remains
in `processing`. -/
theorem C10_unrecognized_payload_is_silent_ack (env : Env) (store : Store)
    (wd : WebhookAIEnhancementRequest) (sig : String)
    (dl : String → Except String String)
    (ul : String → String → String → Except String String)
    (image_id : Nat) (r : ImageRecord)
    (hsig : verify_signature env (env.serialize wd) sig = true)
    (hparse : env.parseUUID wd.job_id = some image_id)
    (hget : get_by_id store image_id = some r)
    (hproc : r.enhancementStatus = .processing)
    (h : (wd.status = "success" ∧ optStrTruthy wd.enhanced_image_url = false) ∨
         (wd.status ≠ "success" ∧ wd.status ≠ "failed")) :
    process_webhook env store wd sig dl ul = (.ok true, store) := by
  rw [process_webhook_eq_dispatch env store wd sig dl ul image_id r hsig hparse hget
    (by rw [hproc]; simp)]
  rcases h with ⟨h1, h2⟩ | ⟨h1, h2⟩
  · simp [h1, h2]
  · simp [h1, h2]

/-- C10 witness: against the `processing` record `1`, a success payload with
no URL and an `"in_progress"` payload are both acknowledged with `true` and
mutate nothing. -/
theorem C10_unrecognized_payload_witness :
    process_webhook envTest [rProcessing] wdNoUrl (sigOf envTest wdNoUrl) dlOk ulOk =
      (.ok true, [rProcessing]) ∧
    process_webhook envTest [rProcessing] wdOdd (sigOf envTest wdOdd) dlOk ulOk =
      (.ok true, [rProcessing]) :=
  ⟨C10_unrecognized_payload_is_silent_ack envTest [rProcessing] wdNoUrl
      (sigOf envTest wdNoUrl) dlOk ulOk 1 rProcessing (by decide) (by decide)
      (by decide) (by decide) (Or.inl (by decide)),
   C10_unrecognized_payload_is_silent_ack envTest [rProcessing] wdOdd
      (sigOf envTest wdOdd) dlOk ulOk 1 rProcessing (by decide) (by decide)
      (by decide) (by decide) (Or.inr (by decide))⟩

/-- C2: for every record whose status is `completed` or `failed`,
`process_webhook` with any valid-signature payload for that record is a
no-op returning `true`; and delivering the identical success payload twice
against a `processing` record yields exactly one transition to `completed`
(the record becomes the completed update of the original, with
`enhancedUrl` set), while the second delivery returns success and leaves
the store — in particular `enhancedUrl` — unchanged. -/
theorem C2_webhook_idempotent :
    (∀ (env : Env) (store : Store) (wd : WebhookAIEnhancementRequest) (sig : String)
        (dl : String → Except String String)
        (ul : String → String → String → Except String String)
        (image_id : Nat) (r : ImageRecord),
        verify_signature env (env.serialize wd) sig = true →
        env.parseUUID wd.job_id = some image_id →
        get_by_id store image_id = some r →
        (r.enhancementStatus = .completed ∨ r.enhancementStatus = .failed) →
        process_webhook env store wd sig dl ul = (.ok true, store)) ∧
    (∀ (env : Env) (store : Store) (wd : WebhookAIEnhancementRequest) (sig : String)
        (dl : String → Except String String)
        (ul : String → String → String → Except String String)
        (image_id : Nat) (r : ImageRecord) (content url : String),
        verify_signature env (env.serialize wd) sig = true →
        env.parseUUID wd.job_id = some image_id →
        get_by_id store image_id = some r →
        r.enhancementStatus = .processing →
        wd.status = "success" →
        optStrTruthy wd.enhanced_image_url = true →
        dl (wd.enhanced_image_url.getD "") = .ok content →
        ul content ("enhanced_" ++ toString r.id ++ ".jpg") "image/jpeg" = .ok url →
        url ≠ "" →
        get_by_id (process_webhook env store wd sig dl ul).2 image_id =
          some (applyStatusUpdate env.now .completed (some url) none r) ∧
        (applyStatusUpdate env.now .completed (some url) none r).enhancementStatus
          = .completed ∧
        (applyStatusUpdate env.now .completed (some url) none r).enhancedUrl = some url ∧
        process_webhook env (process_webhook env store wd sig dl ul).2 wd sig dl ul =
          (.ok true, (process_webhook env store wd sig dl ul).2)) := by
  constructor
  · intro env store wd sig dl ul image_id r hsig hparse hget hterm
    exact process_webhook_terminal_skip env store wd sig dl ul image_id r
      hsig hparse hget hterm
  · intro env store wd sig dl ul image_id r content url
      hsig hparse hget hproc hst hurl hdl hul hne
    have hid : r.id = image_id := (get_by_id_mem hget).2
    have hterm : ¬(r.enhancementStatus = .completed ∨ r.enhancementStatus = .failed) := by
      rw [hproc]
      simp
    have hdisp := process_webhook_eq_dispatch env store wd sig dl ul image_id r
      hsig hparse hget hterm
    have hcond : (wd.status == "success" && optStrTruthy wd.enhanced_image_url) = true := by
      rw [hst, hurl]
      rfl
    rw [hcond, if_pos rfl] at hdisp
    have hps : process_success env store r wd dl ul =
        update_enhancement_status env.now store r.id .completed (some url) none := by
      unfold process_success
      rw [hdl]
      dsimp only
      rw [hul]
    have hstore1 : (process_webhook env store wd sig dl ul).2 =
        update_enhancement_status env.now store r.id .completed (some url) none := by
      rw [hdisp, hps]
    have hturl : optStrTruthy (some url) = true := by
      simp [optStrTruthy, hne]
    have hget1 : get_by_id (process_webhook env store wd sig dl ul).2 image_id =
        some (applyStatusUpdate env.now .completed (some url) none r) := by
      rw [hstore1, ← hid, get_by_id_update_enhancement_status_self, hid, hget]
      rfl
    refine ⟨hget1, applyStatusUpdate_status _ _ _ _ _, ?_, ?_⟩
    · rw [applyStatusUpdate_enhancedUrl]
      simp [hturl]
    · exact process_webhook_terminal_skip env _ wd sig dl ul image_id _ hsig hparse hget1
        (Or.inl (applyStatusUpdate_status _ _ _ _ _))

/-- C2 witness: against the `processing` record `1`, the first success
delivery completes the record with our re-uploaded URL, and the identical
second delivery is a success-returning no-op. -/
theorem C2_webhook_idempotent_witness :
    process_webhook envTest [rCompleted] wdSuccess (sigOf envTest wdSuccess) dlOk ulOk =
      (.ok true, [rCompleted]) ∧
    (get_by_id (process_webhook envTest [rProcessing] wdSuccess (sigOf envTest wdSuccess)
        dlOk ulOk).2 1 =
      some (applyStatusUpdate envTest.now .completed (some "http://ours/enhanced_1.jpg")
        none rProcessing) ∧
     (applyStatusUpdate envTest.now .completed (some "http://ours/enhanced_1.jpg")
        none rProcessing).enhancementStatus = .completed ∧
     (applyStatusUpdate envTest.now .completed (some "http://ours/enhanced_1.jpg")
        none rProcessing).enhancedUrl = some "http://ours/enhanced_1.jpg" ∧
     process_webhook envTest
        (process_webhook envTest [rProcessing] wdSuccess (sigOf envTest wdSuccess)
          dlOk ulOk).2 wdSuccess (sigOf envTest wdSuccess) dlOk ulOk =
       (.ok true,
        (process_webhook envTest [rProcessing] wdSuccess (sigOf envTest wdSuccess)
          dlOk ulOk).2)) :=
  ⟨C2_webhook_idempotent.1 envTest [rCompleted] wdSuccess (sigOf envTest wdSuccess)
      dlOk ulOk 1 rCompleted (by decide) (by decide) (by decide) (Or.inl (by decide)),
   C2_webhook_idempotent.2 envTest [rProcessing] wdSuccess (sigOf envTest wdSuccess)
      dlOk ulOk 1 rProcessing "content:http://prov/e.jpg" "http://ours/enhanced_1.jpg"
      (by decide) (by decide) (by decide) (by decide) (by decide) (by decide)
      rfl rfl (by decide)⟩

/-- C5: for every record in `pending` or `failed`, when the AI-client call
fails `request_enhancement` signals the enhancement-failed error and returns
the store unchanged — no field of any record moves; conversely on client
success it returns the success response and the record becomes `processing`
with `aiJobId` set to the returned id (or the record id when absent) and
`enhancementRequestedAt` set to now. -/
theorem C5_requester_failure_leaves_record_unchanged :
    (∀ (now : Int) (store : Store) (image_id : Nat) (r : ImageRecord) (e : String),
        get_by_id store image_id = some r →
        (r.enhancementStatus = .pending ∨ r.enhancementStatus = .failed) →
        request_enhancement now store image_id (.error e) =
          (.error (.imageEnhancement e), store)) ∧
    (∀ (now : Int) (store : Store) (image_id : Nat) (r : ImageRecord) (j : Option String),
        get_by_id store image_id = some r →
        (r.enhancementStatus = .pending ∨ r.enhancementStatus = .failed) →
        (request_enhancement now store image_id (.ok j)).1 =
          .ok { id := r.id, ai_job_id := j, status := "processing",
                message := "Enhancement request submitted successfully" } ∧
        get_by_id (request_enhancement now store image_id (.ok j)).2 image_id =
          some { r with enhancementStatus := .processing,
                        aiJobId := some (j.getD (toString r.id)),
                        enhancementRequestedAt := some now }) := by
  constructor
  · intro now store image_id r e hget hst
    unfold request_enhancement
    simp only [hget]
    rw [if_pos hst]
  · intro now store image_id r j hget hst
    have heq : request_enhancement now store image_id (.ok j) =
        (.ok { id := r.id, ai_job_id := j, status := "processing",
               message := "Enhancement request submitted successfully" },
         updateRecord store image_id (fun x =>
           { x with enhancementStatus := .processing,
                    aiJobId := some (j.getD (toString r.id)),
                    enhancementRequestedAt := some now })) := by
      unfold request_enhancement
      simp only [hget]
      rw [if_pos hst]
    refine ⟨by rw [heq], ?_⟩
    rw [heq]
    dsimp only
    rw [get_by_id_updateRecord_self store image_id
      (fun x =>
        { x with
            enhancementStatus := .processing,
            aiJobId := some (j.getD (toString r.id)),
            enhancementRequestedAt := some now }) (fun x => rfl), hget]
    rfl

/-- C5 witness: a failed AI call against the `pending` record leaves the
store untouched; a successful call against the `failed` record moves it to
`processing` with the provider job id and a fresh request timestamp. -/
theorem C5_requester_failure_witness :
    request_enhancement 400000 [rPending] 1 (.error "connection refused") =
      (.error (.imageEnhancement "connection refused"), [rPending]) ∧
    ((request_enhancement 400000 [rFailed] 1 (.ok (some "prov-77"))).1 =
       .ok { id := 1, ai_job_id := some "prov-77", status := "processing",
             message := "Enhancement request submitted successfully" } ∧
     get_by_id (request_enhancement 400000 [rFailed] 1 (.ok (some "prov-77"))).2 1 =
       some { rFailed with
                enhancementStatus := .processing,
                aiJobId := some "prov-77",
                enhancementRequestedAt := some 400000 }) :=
  ⟨C5_requester_failure_leaves_record_unchanged.1 400000 [rPending] 1 rPending
      "connection refused" (by decide) (Or.inl (by decide)),
   C5_requester_failure_leaves_record_unchanged.2 400000 [rFailed] 1 rFailed
      (some "prov-77") (by decide) (Or.inr (by decide))⟩

theorem prefix_append_ne_empty (p s : String) (hp : p.length ≠ 0) : p ++ s ≠ "" := by
  intro h
  have hlen := congrArg String.length h
  rw [String.length_append] at hlen
  simp at hlen
  omega

/-- The diagnostic message written by `_process_success` on a storage
failure is never empty, so the truthiness guard of the repository does store it. -/
theorem failMsg_truthy (e : String) :
    optStrTruthy (some ("Failed to process enhanced image: " ++ e)) = true := by
  unfold optStrTruthy
  rw [Bool.not_eq_true']
  rw [beq_eq_false_iff_ne]
  exact prefix_append_ne_empty _ _ (by decide)

/-- The message written by `_process_failure` (provider message or the
generic fallback) is never empty either. -/
theorem pyOrStr_truthy (o : Option String) :
    optStrTruthy (some (pyOrStr o "Enhancement failed")) = true := by
  unfold pyOrStr optStrTruthy
  cases o with
  | none => rfl
  | some s =>
    dsimp only
    by_cases h : (s == "") = true
    · rw [if_pos h]
      rfl
    · rw [if_neg h]
      simp [h]

/-- C8: for a record in `processing` receiving a verified success payload
with a non-empty enhanced-image URL: if the blob download fails, or the
re-upload fails, the record transitions to `failed` with a populated
`errorMessage` rather than remaining in `processing`; if both succeed, it
transitions to `completed` with `enhancedUrl` set to the re-uploaded URL
and `completedAt` set to now. -/
theorem C8_reupload_failure_fails_record :
    (∀ (env : Env) (store : Store) (wd : WebhookAIEnhancementRequest) (sig : String)
        (dl : String → Except String String)
        (ul : String → String → String → Except String String)
        (image_id : Nat) (r : ImageRecord) (e : String),
        verify_signature env (env.serialize wd) sig = true →
        env.parseUUID wd.job_id = some image_id →
        get_by_id store image_id = some r →
        r.enhancementStatus = .processing →
        wd.status = "success" →
        optStrTruthy wd.enhanced_image_url = true →
        dl (wd.enhanced_image_url.getD "") = .error e →
        get_by_id (process_webhook env store wd sig dl ul).2 image_id =
          some (applyStatusUpdate env.now .failed none
            (some ("Failed to process enhanced image: " ++ e)) r) ∧
        (applyStatusUpdate env.now .failed none
          (some ("Failed to process enhanced image: " ++ e)) r).enhancementStatus
            = .failed ∧
        (applyStatusUpdate env.now .failed none
          (some ("Failed to process enhanced image: " ++ e)) r).enhancementErrorMessage
            = some ("Failed to process enhanced image: " ++ e)) ∧
    (∀ (env : Env) (store : Store) (wd : WebhookAIEnhancementRequest) (sig : String)
        (dl : String → Except String String)
        (ul : String → String → String → Except String String)
        (image_id : Nat) (r : ImageRecord) (content e : String),
        verify_signature env (env.serialize wd) sig = true →
        env.parseUUID wd.job_id = some image_id →
        get_by_id store image_id = some r →
        r.enhancementStatus = .processing →
        wd.status = "success" →
        optStrTruthy wd.enhanced_image_url = true →
        dl (wd.enhanced_image_url.getD "") = .ok content →
        ul content ("enhanced_" ++ toString r.id ++ ".jpg") "image/jpeg" = .error e →
        get_by_id (process_webhook env store wd sig dl ul).2 image_id =
          some (applyStatusUpdate env.now .failed none
            (some ("Failed to process enhanced image: " ++ e)) r) ∧
        (applyStatusUpdate env.now .failed none
          (some ("Failed to process enhanced image: " ++ e)) r).enhancementStatus
            = .failed ∧
        (applyStatusUpdate env.now .failed none
          (some ("Failed to process enhanced image: " ++ e)) r).enhancementErrorMessage
            = some ("Failed to process enhanced image: " ++ e)) ∧
    (∀ (env : Env) (store : Store) (wd : WebhookAIEnhancementRequest) (sig : String)
        (dl : String → Except String String)
        (ul : String → String → String → Except String String)
        (image_id : Nat) (r : ImageRecord) (content url : String),
        verify_signature env (env.serialize wd) sig = true →
        env.parseUUID wd.job_id = some image_id →
        get_by_id store image_id = some r →
        r.enhancementStatus = .processing →
        wd.status = "success" →
        optStrTruthy wd.enhanced_image_url = true →
        dl (wd.enhanced_image_url.getD "") = .ok content →
        ul content ("enhanced_" ++ toString r.id ++ ".jpg") "image/jpeg" = .ok url →
        url ≠ "" →
        get_by_id (process_webhook env store wd sig dl ul).2 image_id =
          some (applyStatusUpdate env.now .completed (some url) none r) ∧
        (applyStatusUpdate env.now .completed (some url) none r).enhancementStatus
          = .completed ∧
        (applyStatusUpdate env.now .completed (some url) none r).enhancedUrl = some url ∧
        (applyStatusUpdate env.now .completed (some url) none r).enhancementCompletedAt
          = some env.now) := by
  have key : ∀ (env : Env) (store : Store) (wd : WebhookAIEnhancementRequest)
      (sig : String) (dl : String → Except String String)
      (ul : String → String → String → Except String String)
      (image_id : Nat) (r : ImageRecord) (st : EnhancementStatus)
      (eu em : Option String),
      verify_signature env (env.serialize wd) sig = true →
      env.parseUUID wd.job_id = some image_id →
      get_by_id store image_id = some r →
      r.enhancementStatus = .processing →
      wd.status = "success" →
      optStrTruthy wd.enhanced_image_url = true →
      process_success env store r wd dl ul =
        update_enhancement_status env.now store r.id st eu em →
      get_by_id (process_webhook env store wd sig dl ul).2 image_id =
        some (applyStatusUpdate env.now st eu em r) := by
    intro env store wd sig dl ul image_id r st eu em hsig hparse hget hproc hst hurl hps
    have hid : r.id = image_id := (get_by_id_mem hget).2
    have hterm : ¬(r.enhancementStatus = .completed ∨ r.enhancementStatus = .failed) := by
      rw [hproc]
      simp
    have hdisp := process_webhook_eq_dispatch env store wd sig dl ul image_id r
      hsig hparse hget hterm
    have hcond : (wd.status == "success" && optStrTruthy wd.enhanced_image_url) = true := by
      rw [hst, hurl]
      rfl
    rw [hcond, if_pos rfl] at hdisp
    rw [hdisp]
    dsimp only
    rw [hps, ← hid, get_by_id_update_enhancement_status_self, hid, hget]
    rfl
  refine ⟨?_, ?_, ?_⟩
  · intro env store wd sig dl ul image_id r e hsig hparse hget hproc hst hurl hdl
    have hps : process_success env store r wd dl ul =
        update_enhancement_status env.now store r.id .failed none
          (some ("Failed to process enhanced image: " ++ e)) := by
      unfold process_success
      rw [hdl]
    refine ⟨key env store wd sig dl ul image_id r _ _ _ hsig hparse hget hproc hst hurl hps,
      applyStatusUpdate_status _ _ _ _ _, ?_⟩
    rw [applyStatusUpdate_errorMessage]
    simp [failMsg_truthy]
  · intro env store wd sig dl ul image_id r content e hsig hparse hget hproc hst hurl hdl hul
    have hps : process_success env store r wd dl ul =
        update_enhancement_status env.now store r.id .failed none
          (some ("Failed to process enhanced image: " ++ e)) := by
      unfold process_success
      rw [hdl]
      dsimp only
      rw [hul]
    refine ⟨key env store wd sig dl ul image_id r _ _ _ hsig hparse hget hproc hst hurl hps,
      applyStatusUpdate_status _ _ _ _ _, ?_⟩
    rw [applyStatusUpdate_errorMessage]
    simp [failMsg_truthy]
  · intro env store wd sig dl ul image_id r content url hsig hparse hget hproc hst hurl
      hdl hul hne
    have hps : process_success env store r wd dl ul =
        update_enhancement_status env.now store r.id .completed (some url) none := by
      unfold process_success
      rw [hdl]
      dsimp only
      rw [hul]
    have hturl : optStrTruthy (some url) = true := by
      simp [optStrTruthy, hne]
    refine ⟨key env store wd sig dl ul image_id r _ _ _ hsig hparse hget hproc hst hurl hps,
      applyStatusUpdate_status _ _ _ _ _, ?_, ?_⟩
    · rw [applyStatusUpdate_enhancedUrl]
      simp [hturl]
    · rw [applyStatusUpdate_completedAt]
      simp

/-- C8 witness: against the `processing` record `1` and a verified success
payload, a failing download and a failing upload each yield `failed` with a
populated diagnostic, while a successful download-and-reupload yields
`completed` with our URL and a completion timestamp. -/
theorem C8_reupload_failure_witness :
    get_by_id (process_webhook envTest [rProcessing] wdSuccess (sigOf envTest wdSuccess)
        dlErr ulOk).2 1 =
      some (applyStatusUpdate envTest.now .failed none
        (some ("Failed to process enhanced image: " ++ "download timed out"))
        rProcessing) ∧
    (applyStatusUpdate envTest.now .failed none
      (some ("Failed to process enhanced image: " ++ "download timed out"))
      rProcessing).enhancementErrorMessage =
        some ("Failed to process enhanced image: " ++ "download timed out") ∧
    get_by_id (process_webhook envTest [rProcessing] wdSuccess (sigOf envTest wdSuccess)
        dlOk ulErr).2 1 =
      some (applyStatusUpdate envTest.now .failed none
        (some ("Failed to process enhanced image: " ++ "upload refused")) rProcessing) ∧
    get_by_id (process_webhook envTest [rProcessing] wdSuccess (sigOf envTest wdSuccess)
        dlOk ulOk).2 1 =
      some (applyStatusUpdate envTest.now .completed
        (some "http://ours/enhanced_1.jpg") none rProcessing) ∧
    (applyStatusUpdate envTest.now .completed (some "http://ours/enhanced_1.jpg")
      none rProcessing).enhancementCompletedAt = some envTest.now :=
  ⟨(C8_reupload_failure_fails_record.1 envTest [rProcessing] wdSuccess
      (sigOf envTest wdSuccess) dlErr ulOk 1 rProcessing "download timed out"
      (by decide) (by decide) (by decide) (by decide) (by decide) (by decide) rfl).1,
   (C8_reupload_failure_fails_record.1 envTest [rProcessing] wdSuccess
      (sigOf envTest wdSuccess) dlErr ulOk 1 rProcessing "download timed out"
      (by decide) (by decide) (by decide) (by decide) (by decide) (by decide) rfl).2.2,
   (C8_reupload_failure_fails_record.2.1 envTest [rProcessing] wdSuccess
      (sigOf envTest wdSuccess) dlOk ulErr 1 rProcessing "content:http://prov/e.jpg"
      "upload refused"
      (by decide) (by decide) (by decide) (by decide) (by decide) (by decide)
      rfl rfl).1,
   (C8_reupload_failure_fails_record.2.2 envTest [rProcessing] wdSuccess
      (sigOf envTest wdSuccess) dlOk ulOk 1 rProcessing "content:http://prov/e.jpg"
      "http://ours/enhanced_1.jpg"
      (by decide) (by decide) (by decide) (by decide) (by decide) (by decide)
      rfl rfl (by decide)).1,
   (C8_reupload_failure_fails_record.2.2 envTest [rProcessing] wdSuccess
      (sigOf envTest wdSuccess) dlOk ulOk 1 rProcessing "content:http://prov/e.jpg"
      "http://ours/enhanced_1.jpg"
      (by decide) (by decide) (by decide) (by decide) (by decide) (by decide)
      rfl rfl (by decide)).2.2.2⟩

/-- Pointwise description of the sequential sweep: a row is set to `timeout`
exactly when its id was scanned as stuck; all other rows are untouched. -/
theorem get_by_id_check_stuck_images (now : Int) (store : Store) (id : Nat) :
    get_by_id (check_stuck_images now store).1 id =
      if id ∈ (get_stuck_images now 48 store).map (fun x => x.id) then
        (get_by_id store id).map (fun r => { r with enhancementStatus := .timeout })
      else get_by_id store id := by
  unfold check_stuck_images
  cases hemp : (get_stuck_images now 48 store).isEmpty with
  | true =>
    rw [if_pos hemp]
    rw [List.isEmpty_iff] at hemp
    rw [hemp]
    simp
  | false =>
    rw [if_neg (by rw [hemp]; simp)]
    exact get_by_id_mark_as_timeout store _ id

/-- C7: one sweep call transitions every record that is `processing` with a
request timestamp older than `now` minus the 48-hour threshold to `timeout`,
leaves every `processing` record within the threshold untouched, and returns
exactly the number of records scanned as stuck. -/
theorem C7_sweep_marks_only_stale_processing :
    (∀ (now : Int) (store : Store),
        (check_stuck_images now store).2 = (get_stuck_images now 48 store).length) ∧
    (∀ (now : Int) (store : Store) (id : Nat) (r : ImageRecord) (t : Int),
        get_by_id store id = some r →
        r.enhancementStatus = .processing →
        r.enhancementRequestedAt = some t →
        t < now - 48 * 3600 →
        get_by_id (check_stuck_images now store).1 id =
          some { r with enhancementStatus := .timeout }) ∧
    (∀ (now : Int) (store : Store) (id : Nat) (r : ImageRecord),
        (store.map (fun x => x.id)).Nodup →
        get_by_id store id = some r →
        r.enhancementStatus = .processing →
        (∀ t, r.enhancementRequestedAt = some t → ¬(t < now - 48 * 3600)) →
        get_by_id (check_stuck_images now store).1 id = some r) := by
  refine ⟨?_, ?_, ?_⟩
  · intro now store
    unfold check_stuck_images
    cases hemp : (get_stuck_images now 48 store).isEmpty with
    | true =>
      rw [if_pos hemp]
      rw [List.isEmpty_iff] at hemp
      rw [hemp]
      rfl
    | false =>
      rw [if_neg (by rw [hemp]; simp)]
      rw [mark_as_timeout_count, List.length_map]
      intro i hi
      rw [List.mem_map] at hi
      obtain ⟨s, hs, hsid⟩ := hi
      rw [← hsid]
      exact get_by_id_isSome_of_mem (List.mem_filter.mp hs).1
  · intro now store id r t hget hproc hreq hold
    have hr := get_by_id_mem hget
    have hstuck : r ∈ get_stuck_images now 48 store := by
      simp only [get_stuck_images, List.mem_filter]
      refine ⟨hr.1, ?_⟩
      rw [hproc, hreq]
      simp only [Bool.and_eq_true, decide_eq_true_eq]
      exact ⟨rfl, by omega⟩
    rw [get_by_id_check_stuck_images,
      if_pos (List.mem_map.mpr ⟨r, hstuck, hr.2⟩), hget]
    rfl
  · intro now store id r hnd hget hproc hrec
    have hnotin : id ∉ (get_stuck_images now 48 store).map (fun x => x.id) := by
      intro hmem
      obtain ⟨s, hs, hsid⟩ := List.mem_map.mp hmem
      simp only [get_stuck_images, List.mem_filter] at hs
      have hsr : s = r := get_by_id_unique hnd hget hs.1 hsid
      subst hsr
      have hcond := hs.2
      cases hreq : s.enhancementRequestedAt with
      | none => rw [hreq] at hcond; simp at hcond
      | some t =>
        rw [hreq] at hcond
        simp only [Bool.and_eq_true, decide_eq_true_eq] at hcond
        exact hrec t hreq (by omega)
    rw [get_by_id_check_stuck_images, if_neg hnotin]
    exact hget

/-- C7 witness: with `now = 400000` (cutoff `227200`), the record stuck
since time 0 is moved to `timeout` and counted (count 1), while the record
requested at 364000 (10 hours ago) is untouched. -/
theorem C7_sweep_witness :
    (check_stuck_images 400000 [rStuck, rRecent]).2 =
      (get_stuck_images 400000 48 [rStuck, rRecent]).length ∧
    (get_stuck_images 400000 48 [rStuck, rRecent]).length = 1 ∧
    get_by_id (check_stuck_images 400000 [rStuck, rRecent]).1 1 =
      some { rStuck with enhancementStatus := .timeout } ∧
    get_by_id (check_stuck_images 400000 [rStuck, rRecent]).1 2 = some rRecent :=
  ⟨C7_sweep_marks_only_stale_processing.1 400000 [rStuck, rRecent],
   by decide,
   C7_sweep_marks_only_stale_processing.2.1 400000 [rStuck, rRecent] 1 rStuck 0
     (by decide) (by decide) (by decide) (by decide),
   C7_sweep_marks_only_stale_processing.2.2 400000 [rStuck, rRecent] 2 rRecent
     (by decide) (by decide) (by decide)
     (fun t ht => by
       have h1 : (364000 : Int) = t := Option.some.inj ht
       rw [← h1]
       decide)⟩

/-- How one `update_enhancement_status` call affects the record visible at
an arbitrary id: either that id is untouched, or it is the updated id and
the visible record is the transformed one. -/
theorem status_after_ues (now : Int) (store : Store) (image_id id : Nat)
    (st : EnhancementStatus) (eu em : Option String) (r r' : ImageRecord)
    (hget : get_by_id store id = some r)
    (hget' : get_by_id (update_enhancement_status now store image_id st eu em) id
      = some r') :
    r' = r ∨ (id = image_id ∧ r' = applyStatusUpdate now st eu em r) := by
  by_cases hid : id = image_id
  · subst hid
    rw [get_by_id_update_enhancement_status_self, hget] at hget'
    exact Or.inr ⟨rfl, (Option.some.inj hget').symm⟩
  · rw [get_by_id_update_enhancement_status_other now store image_id id st eu em hid,
      hget] at hget'
    exact Or.inl (Option.some.inj hget').symm

/-- Every run of `process_webhook` either leaves the store unchanged or
performs a single `update_enhancement_status` to `completed` or `failed` on
the record it correlated, which the idempotency guard had found
non-terminal. -/
theorem process_webhook_store_cases (env : Env) (store : Store)
    (wd : WebhookAIEnhancementRequest) (sig : String)
    (dl : String → Except String String)
    (ul : String → String → String → Except String String) :
    (process_webhook env store wd sig dl ul).2 = store ∨
    ∃ image_id image st eu em,
      env.parseUUID wd.job_id = some image_id ∧
      get_by_id store image_id = some image ∧
      ¬(image.enhancementStatus = .completed ∨ image.enhancementStatus = .failed) ∧
      (st = EnhancementStatus.completed ∨ st = .failed) ∧
      (st = EnhancementStatus.completed →
        em = none ∧ ∃ u, eu = some u ∧ ∃ c n t, ul c n t = .ok u) ∧
      (st = EnhancementStatus.failed → eu = none ∧ optStrTruthy em = true) ∧
      (process_webhook env store wd sig dl ul).2 =
        update_enhancement_status env.now store image_id st eu em := by
  cases hv : verify_signature env (env.serialize wd) sig with
  | false =>
    left
    unfold process_webhook
    rw [hv]
    rfl
  | true =>
    cases hp : env.parseUUID wd.job_id with
    | none =>
      left
      unfold process_webhook
      rw [hv, hp]
      rfl
    | some image_id =>
      cases hgi : get_by_id store image_id with
      | none =>
        left
        unfold process_webhook
        simp only [hv, hp, hgi]
        rfl
      | some image =>
        by_cases hterm : image.enhancementStatus = .completed ∨
            image.enhancementStatus = .failed
        · left
          rw [process_webhook_terminal_skip env store wd sig dl ul image_id image
            hv hp hgi hterm]
        · have hdisp := process_webhook_eq_dispatch env store wd sig dl ul image_id
            image hv hp hgi hterm
          have hid : image.id = image_id := (get_by_id_mem hgi).2
          by_cases hc1 : (wd.status == "success" && optStrTruthy wd.enhanced_image_url)
              = true
          · rcases process_success_cases env store image wd dl ul with
              ⟨e, hps⟩ | ⟨content, u, hu, hps⟩
            · exact Or.inr ⟨image_id, image, .failed, none,
                some ("Failed to process enhanced image: " ++ e), rfl, hgi, hterm,
                Or.inr rfl, (fun h => by cases h), (fun _ => ⟨rfl, failMsg_truthy e⟩),
                by rw [hdisp]; dsimp only; rw [if_pos hc1, hps, hid]⟩
            · exact Or.inr ⟨image_id, image, .completed, some u, none, rfl, hgi, hterm,
                Or.inl rfl, (fun _ => ⟨rfl, u, rfl, content, _, _, hu⟩),
                (fun h => by cases h),
                by rw [hdisp]; dsimp only; rw [if_pos hc1, hps, hid]⟩
          · by_cases hc2 : (wd.status == "failed") = true
            · exact Or.inr ⟨image_id, image, .failed, none,
                some (pyOrStr wd.error_message "Enhancement failed"), rfl, hgi, hterm,
                Or.inr rfl, (fun h => by cases h),
                (fun _ => ⟨rfl, pyOrStr_truthy wd.error_message⟩),
                by
                  rw [hdisp]
                  dsimp only
                  rw [if_neg hc1, if_pos hc2]
                  unfold process_failure
                  rw [hid]⟩
            · left
              rw [hdisp]
              dsimp only
              rw [if_neg hc1, if_neg hc2]

/-- C1 (amended): the status machine of the code. `request_enhancement` on
a record in `processing`, `completed` or `timeout` raises the
`ValidationException` and leaves the store unchanged, and on a `pending` or
`failed` record whose AI call succeeds it moves the record to `processing`;
`process_webhook` either leaves the status of a record unchanged or moves a
record whose status is `pending`, `processing` or `timeout` (the statuses
its guard treats as non-terminal) to `completed` or `failed`; and the sweep
either leaves the status of a record unchanged or moves a `processing` record to
`timeout`. The stronger assertion of the original claim that no operation moves
a record out of `timeout` is refuted by the counterexample. -/
theorem C1_amended_state_machine :
    (∀ (now : Int) (store : Store) (image_id : Nat)
        (ai : Except String (Option String)) (r : ImageRecord),
        get_by_id store image_id = some r →
        (r.enhancementStatus = .processing ∨ r.enhancementStatus = .completed ∨
         r.enhancementStatus = .timeout) →
        request_enhancement now store image_id ai =
          (.error (.validation ("Image cannot be enhanced. Current status: " ++
            statusValue r.enhancementStatus)), store)) ∧
    (∀ (now : Int) (store : Store) (image_id : Nat) (j : Option String) (r : ImageRecord),
        get_by_id store image_id = some r →
        (r.enhancementStatus = .pending ∨ r.enhancementStatus = .failed) →
        (get_by_id (request_enhancement now store image_id (.ok j)).2 image_id).map
          (fun x => x.enhancementStatus) = some .processing) ∧
    (∀ (env : Env) (store : Store) (wd : WebhookAIEnhancementRequest) (sig : String)
        (dl : String → Except String String)
        (ul : String → String → String → Except String String)
        (id : Nat) (r r' : ImageRecord),
        get_by_id store id = some r →
        get_by_id (process_webhook env store wd sig dl ul).2 id = some r' →
        r'.enhancementStatus = r.enhancementStatus ∨
        ((r.enhancementStatus = .pending ∨ r.enhancementStatus = .processing ∨
          r.enhancementStatus = .timeout) ∧
         (r'.enhancementStatus = .completed ∨ r'.enhancementStatus = .failed))) ∧
    (∀ (now : Int) (store : Store) (id : Nat) (r r' : ImageRecord),
        (store.map (fun x => x.id)).Nodup →
        get_by_id store id = some r →
        get_by_id (check_stuck_images now store).1 id = some r' →
        r'.enhancementStatus = r.enhancementStatus ∨
        (r.enhancementStatus = .processing ∧ r'.enhancementStatus = .timeout)) := by
  refine ⟨?_, ?_, ?_, ?_⟩
  · intro now store image_id ai r hget hst
    unfold request_enhancement
    simp only [hget]
    rw [if_neg (by rcases hst with h | h | h <;> rw [h] <;> simp)]
  · intro now store image_id j r hget hst
    have heq : (request_enhancement now store image_id (.ok j)).2 =
        updateRecord store image_id (fun x =>
          { x with
              enhancementStatus := .processing,
              aiJobId := some (j.getD (toString r.id)),
              enhancementRequestedAt := some now }) := by
      unfold request_enhancement
      simp only [hget]
      rw [if_pos hst]
    rw [heq, get_by_id_updateRecord_self store image_id (fun x =>
        { x with
            enhancementStatus := .processing,
            aiJobId := some (j.getD (toString r.id)),
            enhancementRequestedAt := some now }) (fun x => rfl), hget]
    rfl
  · intro env store wd sig dl ul id r r' hget hget'
    rcases process_webhook_store_cases env store wd sig dl ul with
      hsame | ⟨iid, image, st, eu, em, hp, hgi, hterm, hst, hcompl, hfail, heq⟩
    · rw [hsame, hget] at hget'
      left
      rw [← Option.some.inj hget']
    · rw [heq] at hget'
      rcases status_after_ues env.now store iid id st eu em r r' hget hget' with
        h | ⟨hid, h⟩
      · left
        rw [h]
      · subst hid
        have hri : r = image := Option.some.inj (hget.symm.trans hgi)

        right
        constructor
        · rw [hri]
          cases hsi : image.enhancementStatus <;> simp_all
        · rw [h, applyStatusUpdate_status]
          exact hst
  · intro now store id r r' hnd hget hget'
    rw [get_by_id_check_stuck_images] at hget'
    by_cases hmem : id ∈ (get_stuck_images now 48 store).map (fun x => x.id)
    · rw [if_pos hmem, hget] at hget'
      have hr' : r' = { r with enhancementStatus := .timeout } :=
        (Option.some.inj hget').symm
      right
      obtain ⟨s, hs, hsid⟩ := List.mem_map.mp hmem
      simp only [get_stuck_images, List.mem_filter] at hs
      have hsr : s = r := get_by_id_unique hnd hget hs.1 hsid
      refine ⟨?_, by rw [hr']⟩
      have hcond := hs.2
      rw [hsr] at hcond
      simp only [Bool.and_eq_true, beq_iff_eq] at hcond
      exact hcond.1
    · rw [if_neg hmem, hget] at hget'
      left
      rw [← Option.some.inj hget']

/-- C1 witness: each clause of the amended state machine at a concrete
input — the rejection on a `completed` record, the `pending → processing`
transition, a `failed` webhook against the `processing` record, and the
sweep on the stale `processing` record. -/
theorem C1_amended_state_machine_witness :
    request_enhancement 400000 [rCompleted] 1 (.ok none) =
      (.error (.validation "Image cannot be enhanced. Current status: completed"),
       [rCompleted]) ∧
    (get_by_id (request_enhancement 400000 [rPending] 1 (.ok none)).2 1).map
      (fun x => x.enhancementStatus) = some .processing ∧
    ((applyStatusUpdate envTest.now .failed none (some "provider exploded")
        rProcessing).enhancementStatus = rProcessing.enhancementStatus ∨
     ((rProcessing.enhancementStatus = .pending ∨
       rProcessing.enhancementStatus = .processing ∨
       rProcessing.enhancementStatus = .timeout) ∧
      ((applyStatusUpdate envTest.now .failed none (some "provider exploded")
          rProcessing).enhancementStatus = .completed ∨
       (applyStatusUpdate envTest.now .failed none (some "provider exploded")
          rProcessing).enhancementStatus = .failed))) ∧
    (({ rStuck with enhancementStatus := EnhancementStatus.timeout
        } : ImageRecord).enhancementStatus = rStuck.enhancementStatus ∨
     (rStuck.enhancementStatus = .processing ∧
      ({ rStuck with enhancementStatus := EnhancementStatus.timeout
        } : ImageRecord).enhancementStatus = .timeout)) :=
  ⟨C1_amended_state_machine.1 400000 [rCompleted] 1 (.ok none) rCompleted
     (by decide) (Or.inr (Or.inl (by decide))),
   C1_amended_state_machine.2.1 400000 [rPending] 1 none rPending
     (by decide) (Or.inl (by decide)),
   C1_amended_state_machine.2.2.1 envTest [rProcessing] wdFailed
     (sigOf envTest wdFailed) dlOk ulOk 1 rProcessing
     (applyStatusUpdate envTest.now .failed none (some "provider exploded") rProcessing)
     (by decide) rfl,
   C1_amended_state_machine.2.2.2 400000 [rStuck] 1 rStuck
     { rStuck with enhancementStatus := EnhancementStatus.timeout }
     (by decide) (by decide) rfl⟩

/-- C1 counterexample: the original claim says no operation ever moves a
record out of `timeout`, but a verified success webhook against the
`timeout` record `1` moves it to `completed` — the idempotency guard only
treats `completed` and `failed` as terminal. -/
theorem C1_counterexample_webhook_escapes_timeout :
    (get_by_id [rTimeout] 1).map (fun r => r.enhancementStatus) = some .timeout ∧
    (get_by_id (process_webhook envTest [rTimeout] wdSuccess (sigOf envTest wdSuccess)
        dlOk ulOk).2 1).map (fun r => r.enhancementStatus) = some .completed ∧
    (process_webhook envTest [rTimeout] wdSuccess (sigOf envTest wdSuccess)
      dlOk ulOk).1 = .ok true :=
  ⟨rfl, rfl, rfl⟩

/-- C3: evaluation of the code at the failing input. Record `1` is stuck in
`processing` and is scanned as stuck; between the scan and the per-record
apply a verified success webhook completes it (its status is `completed`,
with `enhancedUrl` set, immediately before the mutation); yet
`mark_as_timeout` performs no re-check of `status == processing` and
overwrites the record with `timeout`, producing exactly the mixed state the
spec forbids (`timeout` with `enhancedUrl` set) and counting it as
transitioned. -/
theorem C3_sweep_overwrites_completed_record :
    (get_by_id ((process_webhook envTest [rStuck] wdSuccess (sigOf envTest wdSuccess)
        dlOk ulOk).2) 1).map (fun r => r.enhancementStatus) = some .completed ∧
    (get_by_id (check_stuck_images_interleaved 400000 [rStuck]
        (fun st => (process_webhook envTest st wdSuccess (sigOf envTest wdSuccess)
          dlOk ulOk).2)).1 1).map
      (fun r => (r.enhancementStatus, r.enhancedUrl)) =
      some (.timeout, some "http://ours/enhanced_1.jpg") ∧
    (check_stuck_images_interleaved 400000 [rStuck]
        (fun st => (process_webhook envTest st wdSuccess (sigOf envTest wdSuccess)
          dlOk ulOk).2)).2 = 1 :=
  ⟨rfl, rfl, rfl⟩

/-! ## Invariant infrastructure for C6 -/

theorem recordInv_iff (r : ImageRecord) :
    recordInv r = true ↔
      (r.enhancedUrl.isSome = decide (r.enhancementStatus = .completed) ∧
       r.enhancementCompletedAt.isSome =
         decide (r.enhancementStatus = .completed ∨ r.enhancementStatus = .failed)) := by
  unfold recordInv
  rw [Bool.and_eq_true, beq_iff_eq, beq_iff_eq]

theorem ues_eq_updateRecord (now : Int) (store : Store) (image_id : Nat)
    (st : EnhancementStatus) (eu em : Option String) (image : ImageRecord)
    (hgi : get_by_id store image_id = some image) :
    update_enhancement_status now store image_id st eu em =
      updateRecord store image_id (applyStatusUpdate now st eu em) := by
  unfold update_enhancement_status
  rw [hgi]

/-- Every row of a `mark_as_timeout` result is an original row, possibly
with its status overwritten by `timeout` when its id was in the list. -/
theorem mem_mark_as_timeout (store : Store) (ids : List Nat) (x : ImageRecord)
    (hx : x ∈ (mark_as_timeout store ids).1) :
    ∃ r ∈ store, x = r ∨
      (r.id ∈ ids ∧ x = { r with enhancementStatus := .timeout }) := by
  induction ids generalizing store with
  | nil => exact ⟨x, hx, Or.inl rfl⟩
  | cons i rest ih =>
    unfold mark_as_timeout at hx
    cases hg : get_by_id store i with
    | none =>
      rw [hg] at hx
      obtain ⟨r, hr, hor⟩ := ih store hx
      refine ⟨r, hr, ?_⟩
      rcases hor with h | ⟨hid, h⟩
      · exact Or.inl h
      · exact Or.inr ⟨List.mem_cons.mpr (Or.inr hid), h⟩
    | some image =>
      rw [hg] at hx
      dsimp only at hx
      obtain ⟨r, hr, hor⟩ := ih _ hx
      rw [mem_updateRecord] at hr
      obtain ⟨r₀, hr₀, hreq⟩ := hr
      refine ⟨r₀, hr₀, ?_⟩
      by_cases h : r₀.id = i
      · rw [if_pos h] at hreq
        rcases hor with h1 | ⟨hid, h1⟩
        · exact Or.inr ⟨List.mem_cons.mpr (Or.inl h), by rw [h1, hreq]⟩
        · exact Or.inr ⟨List.mem_cons.mpr (Or.inl h), by rw [h1, hreq]⟩
      · rw [if_neg h] at hreq
        rcases hor with h1 | ⟨hid, h1⟩
        · exact Or.inl (by rw [h1, hreq])
        · refine Or.inr ⟨List.mem_cons.mpr (Or.inr ?_), by rw [h1, hreq]⟩
          rw [← hreq]
          exact hid

/-- C6 (amended): the §3 record invariants (`enhancedUrl` non-null iff
`completed`; `completedAt` non-null iff `completed` or `failed`) are
established by upload and preserved by `request_enhancement` on a `pending`
record, by `process_webhook` (whenever the object store returns non-empty
URLs), and by the sequential sweep — but `request_enhancement` on a
`failed` record moves it to `processing` while leaving
`enhancementCompletedAt` at its prior non-null value (the code never clears
it), so re-enhancement breaks the `completedAt` invariant instead of
restoring the field to null as the original claim states. -/
theorem C6_amended_invariant_preservation :
    (∀ (store : Store) (id propertyId : Nat) (url : String),
        StoreInv store → StoreInv (upload_image store id propertyId url)) ∧
    (∀ (now : Int) (store : Store) (image_id : Nat)
        (ai : Except String (Option String)) (r : ImageRecord),
        (store.map (fun x => x.id)).Nodup →
        StoreInv store →
        get_by_id store image_id = some r →
        r.enhancementStatus = .pending →
        StoreInv (request_enhancement now store image_id ai).2) ∧
    (∀ (now : Int) (store : Store) (image_id : Nat) (j : Option String) (r : ImageRecord),
        StoreInv store →
        get_by_id store image_id = some r →
        r.enhancementStatus = .failed →
        get_by_id (request_enhancement now store image_id (.ok j)).2 image_id =
          some { r with
                   enhancementStatus := .processing,
                   aiJobId := some (j.getD (toString r.id)),
                   enhancementRequestedAt := some now } ∧
        r.enhancementCompletedAt ≠ none) ∧
    (∀ (env : Env) (store : Store) (wd : WebhookAIEnhancementRequest) (sig : String)
        (dl : String → Except String String)
        (ul : String → String → String → Except String String),
        (store.map (fun x => x.id)).Nodup →
        StoreInv store →
        (∀ c n t u, ul c n t = .ok u → u ≠ "") →
        StoreInv (process_webhook env store wd sig dl ul).2) ∧
    (∀ (now : Int) (store : Store),
        (store.map (fun x => x.id)).Nodup →
        StoreInv store →
        StoreInv (check_stuck_images now store).1) := by
  refine ⟨?_, ?_, ?_, ?_, ?_⟩
  · intro store id propertyId url hinv x hx
    rcases List.mem_append.mp hx with h | h
    · exact hinv x h
    · rw [List.mem_singleton.mp h]
      rfl
  · intro now store image_id ai r hnd hinv hget hpend
    unfold request_enhancement
    simp only [hget]
    rw [if_pos (Or.inl hpend)]
    cases ai with
    | error e => exact hinv
    | ok j =>
      dsimp only
      intro x hx
      rw [mem_updateRecord] at hx
      obtain ⟨r₀, hr₀, hx⟩ := hx
      by_cases h : r₀.id = image_id
      · rw [if_pos h] at hx
        have hr0r : r₀ = r := get_by_id_unique hnd hget hr₀ h
        subst hr0r
        have hrinv := hinv r₀ hr₀
        rw [recordInv_iff] at hrinv
        have e1 : r₀.enhancedUrl.isSome = false := by
          rw [hrinv.1, hpend]
          rfl
        have e2 : r₀.enhancementCompletedAt.isSome = false := by
          rw [hrinv.2, hpend]
          rfl
        rw [hx, recordInv_iff]
        dsimp only
        rw [e1, e2]
        exact ⟨rfl, rfl⟩
      · rw [if_neg h] at hx
        rw [hx]
        exact hinv r₀ hr₀
  · intro now store image_id j r hinv hget hfail
    have heq : (request_enhancement now store image_id (.ok j)).2 =
        updateRecord store image_id (fun x =>
          { x with
              enhancementStatus := .processing,
              aiJobId := some (j.getD (toString r.id)),
              enhancementRequestedAt := some now }) := by
      unfold request_enhancement
      simp only [hget]
      rw [if_pos (Or.inr hfail)]
    constructor
    · rw [heq, get_by_id_updateRecord_self store image_id (fun x =>
          { x with
              enhancementStatus := .processing,
              aiJobId := some (j.getD (toString r.id)),
              enhancementRequestedAt := some now }) (fun x => rfl), hget]
      rfl
    · have hrinv := hinv r (get_by_id_mem hget).1
      rw [recordInv_iff] at hrinv
      have e2 : r.enhancementCompletedAt.isSome = true := by
        rw [hrinv.2, hfail]
        rfl
      rw [← Option.isSome_iff_ne_none]
      exact e2
  · intro env store wd sig dl ul hnd hinv hul
    rcases process_webhook_store_cases env store wd sig dl ul with
      hsame | ⟨iid, image, st, eu, em, hp, hgi, hterm, hst, hcompl, hfail, heq⟩
    · rw [hsame]
      exact hinv
    · rw [heq, ues_eq_updateRecord env.now store iid st eu em image hgi]
      intro x hx
      rw [mem_updateRecord] at hx
      obtain ⟨r₀, hr₀, hx⟩ := hx
      by_cases h : r₀.id = iid
      · rw [if_pos h] at hx
        have hr0 : r₀ = image := get_by_id_unique hnd hgi hr₀ h
        subst hr0
        have himg := hinv r₀ hr₀
        rw [recordInv_iff] at himg
        rw [hx, recordInv_iff, applyStatusUpdate_status, applyStatusUpdate_enhancedUrl,
          applyStatusUpdate_completedAt]
        rcases hst with hc | hf
        · obtain ⟨hem, u, heu, c, n, t, hu⟩ := hcompl hc
          subst hc
          subst heu
          have hun : u ≠ "" := hul c n t u hu
          have htr : optStrTruthy (some u) = true := by
            simp [optStrTruthy, hun]
          rw [if_pos htr]
          exact ⟨rfl, rfl⟩
        · obtain ⟨heu, hem⟩ := hfail hf
          subst hf
          subst heu
          rw [if_neg (by simp [optStrTruthy])]
          constructor
          · rw [himg.1]
            have : decide (r₀.enhancementStatus = EnhancementStatus.completed) = false :=
              decide_eq_false (fun hh => hterm (Or.inl hh))
            rw [this]
            rfl
          · rfl
      · rw [if_neg h] at hx
        rw [hx]
        exact hinv r₀ hr₀
  · intro now store hnd hinv
    unfold check_stuck_images
    cases hemp : (get_stuck_images now 48 store).isEmpty with
    | true =>
      rw [if_pos hemp]
      exact hinv
    | false =>
      rw [if_neg (by rw [hemp]; simp)]
      intro x hx
      obtain ⟨r₀, hr₀, hor⟩ := mem_mark_as_timeout store _ x hx
      rcases hor with h | ⟨hid, h⟩
      · rw [h]
        exact hinv r₀ hr₀
      · obtain ⟨s, hs, hsid⟩ := List.mem_map.mp hid
        simp only [get_stuck_images, List.mem_filter] at hs
        have hsr : s = r₀ := List.inj_on_of_nodup_map hnd hs.1 hr₀ hsid
        have hproc : r₀.enhancementStatus = .processing := by
          have hcond := hs.2
          rw [hsr] at hcond
          simp only [Bool.and_eq_true, beq_iff_eq] at hcond
          exact hcond.1
        have hrinv := hinv r₀ hr₀
        rw [recordInv_iff] at hrinv
        have e1 : r₀.enhancedUrl.isSome = false := by
          rw [hrinv.1, hproc]
          rfl
        have e2 : r₀.enhancementCompletedAt.isSome = false := by
          rw [hrinv.2, hproc]
          rfl
        rw [h, recordInv_iff]
        dsimp only
        rw [e1, e2]
        exact ⟨rfl, rfl⟩

/-- The concrete object-store stub returns non-empty URLs. -/
theorem ulOk_nonempty : ∀ c n t u, ulOk c n t = .ok u → u ≠ "" := by
  intro c n t u h
  cases h
  exact prefix_append_ne_empty _ _ (by decide)

/-- C6 witness: each preserved clause at a concrete input — upload next to
the completed record, re-request on the pending record, the `failed` record
violation, a full success webhook, and the sweep over the two processing
records. -/
theorem C6_amended_invariant_witness :
    StoreInv (upload_image [rCompleted] 2 10 "http://o/2.jpg") ∧
    StoreInv (request_enhancement 400000 [rPending] 1 (.ok none)).2 ∧
    (get_by_id (request_enhancement 400000 [rFailed] 1 (.ok (some "p9"))).2 1 =
       some { rFailed with
                enhancementStatus := .processing,
                aiJobId := some "p9",
                enhancementRequestedAt := some 400000 } ∧
     rFailed.enhancementCompletedAt ≠ none) ∧
    StoreInv (process_webhook envTest [rProcessing] wdSuccess (sigOf envTest wdSuccess)
      dlOk ulOk).2 ∧
    StoreInv (check_stuck_images 400000 [rStuck, rRecent]).1 :=
  ⟨C6_amended_invariant_preservation.1 [rCompleted] 2 10 "http://o/2.jpg" (by decide),
   C6_amended_invariant_preservation.2.1 400000 [rPending] 1 (.ok none) rPending
     (by decide) (by decide) (by decide) (by decide),
   C6_amended_invariant_preservation.2.2.1 400000 [rFailed] 1 (some "p9") rFailed
     (by decide) (by decide) (by decide),
   C6_amended_invariant_preservation.2.2.2.1 envTest [rProcessing] wdSuccess
     (sigOf envTest wdSuccess) dlOk ulOk (by decide) (by decide) ulOk_nonempty,
   C6_amended_invariant_preservation.2.2.2.2 400000 [rStuck, rRecent]
     (by decide) (by decide)⟩

/-- C6 counterexample: the `failed` record satisfies the invariants, yet
re-enhancing it leaves a `processing` record whose
`enhancementCompletedAt` is still `some 200` — the invariant
that `completedAt` is non-null iff the status is `completed` or `failed` is violated, and
`completedAt` is not restored to null as the claim states. -/
theorem C6_counterexample_completedAt_not_cleared :
    recordInv rFailed = true ∧
    (get_by_id (request_enhancement 400000 [rFailed] 1 (.ok none)).2 1).map
      (fun x => (x.enhancementStatus, x.enhancementCompletedAt)) =
      some (.processing, some 200) ∧
    (get_by_id (request_enhancement 400000 [rFailed] 1 (.ok none)).2 1).map
      recordInv = some false :=
  ⟨by decide, rfl, by decide⟩

end BuyNoida
